import Mathlib

/-!
Verification development for the Steam Deck animation daemon
(`src/daemon/src/{main,animation,config,steam_monitor,video_processor}.rs`).

The Rust code is shallowly embedded: pure computations become Lean
functions, stateful methods become explicit state-passing functions, the
outcomes of external effects (process-table snapshots, `ffmpeg`
invocations, `mount`/`umount` exit statuses, filesystem contents) are
passed in as explicit parameters, and fallible code returns `Except` /
`Option`.  Machine integers are modelled as `Nat` with explicit
`% 2^32` / `% 2^64` reductions where the Rust code wraps.
-/

/-! ## Byte-level helpers (little/big-endian serialisations, hex) -/

/-- Little-endian bytes of a `u64` value, as produced by `u64::to_le_bytes`. -/
def u64le (n : Nat) : List Nat :=
  (List.range 8).map (fun i => n / 2 ^ (8 * i) % 256)

/-- Little-endian bytes of a `u32` value, as produced by `u32::to_le_bytes`. -/
def u32le (n : Nat) : List Nat :=
  (List.range 4).map (fun i => n / 2 ^ (8 * i) % 256)

/-- Big-endian bytes of a 32-bit word. -/
def u32be (n : Nat) : List Nat :=
  [n / 2 ^ 24 % 256, n / 2 ^ 16 % 256, n / 2 ^ 8 % 256, n % 256]

/-- Big-endian bytes of a 64-bit word. -/
def u64be (n : Nat) : List Nat :=
  (List.range 8).map (fun i => n / 2 ^ (8 * (7 - i)) % 256)

/-- Lower-case hex digit for a value `< 16`. -/
def hexDigit (n : Nat) : Char :=
  if n < 10 then Char.ofNat (48 + n) else Char.ofNat (87 + n)

/-- Two lower-case hex digits of one byte (zero-padded, as `{:x}` on a digest
byte sequence prints each byte). -/
def byteToHex (b : Nat) : List Char :=
  [hexDigit (b / 16), hexDigit (b % 16)]

/-- Hex rendering of a byte list. -/
def hexChars (bs : List Nat) : List Char :=
  bs.foldr (fun b acc => byteToHex b ++ acc) []

/-! ## SHA-256 (the `sha2::Sha256` digest used by `generate_cache_key`) -/

/-- 32-bit right rotation on `Nat` values below `2^32`. -/
def rotr32 (x n : Nat) : Nat :=
  ((x >>> n) ||| (x <<< (32 - n))) % 4294967296

/-- The 64 SHA-256 round constants (decimal). -/
def sha256K : List Nat :=
  [1116352408, 1899447441, 3049323471, 3921009573, 961987163,
   1508970993, 2453635748, 2870763221, 3624381080, 310598401,
   607225278, 1426881987, 1925078388, 2162078206, 2614888103,
   3248222580, 3835390401, 4022224774, 264347078, 604807628,
   770255983, 1249150122, 1555081692, 1996064986, 2554220882,
   2821834349, 2952996808, 3210313671, 3336571891, 3584528711,
   113926993, 338241895, 666307205, 773529912, 1294757372,
   1396182291, 1695183700, 1986661051, 2177026350, 2456956037,
   2730485921, 2820302411, 3259730800, 3345764771, 3516065817,
   3600352804, 4094571909, 275423344, 430227734, 506948616,
   659060556, 883997877, 958139571, 1322822218, 1537002063,
   1747873779, 1955562222, 2024104815, 2227730452, 2361852424,
   2428436474, 2756734187, 3204031479, 3329325298]

/-- Working state of the SHA-256 compression function (eight 32-bit words). -/
structure Sha256State where
  a : Nat
  b : Nat
  c : Nat
  d : Nat
  e : Nat
  f : Nat
  g : Nat
  h : Nat
deriving Repr, DecidableEq

/-- The SHA-256 initial hash value (decimal). -/
def sha256H0 : Sha256State :=
  ⟨1779033703, 3144134277, 1013904242, 2773480762,
   1359893119, 2600822924, 528734635, 1541459225⟩

/-- One round of the SHA-256 compression function. -/
def sha256round (s : Sha256State) (k w : Nat) : Sha256State :=
  let S1 := rotr32 s.e 6 ^^^ rotr32 s.e 11 ^^^ rotr32 s.e 25
  let ch := (s.e &&& s.f) ^^^ ((s.e ^^^ 4294967295) &&& s.g)
  let temp1 := (s.h + S1 + ch + k + w) % 4294967296
  let S0 := rotr32 s.a 2 ^^^ rotr32 s.a 13 ^^^ rotr32 s.a 22
  let maj := (s.a &&& s.b) ^^^ (s.a &&& s.c) ^^^ (s.b &&& s.c)
  let temp2 := (S0 + maj) % 4294967296
  ⟨(temp1 + temp2) % 4294967296, s.a, s.b, s.c,
   (s.d + temp1) % 4294967296, s.e, s.f, s.g⟩

/-- Big-endian grouping of bytes into 32-bit words. -/
def bytesToWords : List Nat → List Nat
  | b0 :: b1 :: b2 :: b3 :: rest =>
      (((b0 * 256 + b1) * 256 + b2) * 256 + b3) :: bytesToWords rest
  | _ => []

/-- Message-schedule extension: given the sliding window of the last 16
words, produce the next `n` schedule words. -/
def sha256schedule (w : List Nat) : Nat → List Nat
  | 0 => []
  | Nat.succ m =>
    match w with
    | w0 :: w1 :: _ :: _ :: _ :: _ :: _ :: _ :: _ :: w9 :: _ :: _ :: _ :: _ :: w14 :: _ :: _ =>
      let s0 := rotr32 w1 7 ^^^ rotr32 w1 18 ^^^ (w1 >>> 3)
      let s1 := rotr32 w14 17 ^^^ rotr32 w14 19 ^^^ (w14 >>> 10)
      let next := (w0 + s0 + w9 + s1) % 4294967296
      next :: sha256schedule (w.drop 1 ++ [next]) m
    | _ => []

/-- Compress one 64-byte block into the running hash state. -/
def sha256compressBlock (h : Sha256State) (block : List Nat) : Sha256State :=
  let w16 := bytesToWords block
  let ws := w16 ++ sha256schedule w16 48
  let s := (sha256K.zip ws).foldl (fun s kw => sha256round s kw.1 kw.2) h
  ⟨(h.a + s.a) % 4294967296, (h.b + s.b) % 4294967296,
   (h.c + s.c) % 4294967296, (h.d + s.d) % 4294967296,
   (h.e + s.e) % 4294967296, (h.f + s.f) % 4294967296,
   (h.g + s.g) % 4294967296, (h.h + s.h) % 4294967296⟩

/-- SHA-256 padding: `0x80`, zeros to 56 mod 64, then the bit length as a
big-endian 64-bit word. -/
def sha256pad (msg : List Nat) : List Nat :=
  let L := msg.length
  let k := (120 - (L + 1) % 64) % 64
  msg ++ [128] ++ List.replicate k 0 ++ u64be (L * 8 % 2 ^ 64)

/-- Split a byte list into 64-byte chunks (structural recursion on a fuel
bound so the kernel can evaluate it). -/
def chunks64Go : Nat → List Nat → List (List Nat)
  | 0, _ => []
  | _ + 1, [] => []
  | fuel + 1, l => l.take 64 :: chunks64Go fuel (l.drop 64)

/-- Split a byte list into 64-byte chunks. -/
def chunks64 (l : List Nat) : List (List Nat) :=
  chunks64Go l.length l

/-- SHA-256 digest of a byte list, as 32 bytes. -/
def sha256 (msg : List Nat) : List Nat :=
  let fin := (chunks64 (sha256pad msg)).foldl sha256compressBlock sha256H0
  u32be fin.a ++ u32be fin.b ++ u32be fin.c ++ u32be fin.d ++
  u32be fin.e ++ u32be fin.f ++ u32be fin.g ++ u32be fin.h

/-! ## Data model (`config.rs`, `animation.rs`) -/

/-- Embeds `config::RandomizeMode`. -/
inductive RandomizeMode
  | Disabled
  | PerBoot
  | PerSet
deriving DecidableEq, Repr

/-- Embeds `animation::AnimationType`. -/
inductive AnimationType
  | Boot
  | Suspend
  | Throbber
deriving DecidableEq, Repr

/-- Embeds `config::Config`, restricted to the fields the embedded core reads.
Durations are in whole seconds (`Duration::as_secs`); the omitted fields
(catalog paths, network, logging, poll intervals) are not read by any
embedded function. -/
structure Config where
  steam_override_path : String
  animation_cache_path : String
  current_boot_animation : Option String
  current_suspend_animation : Option String
  current_throbber_animation : Option String
  randomize_mode : RandomizeMode
  shuffle_exclusions : List String
  max_animation_duration : Nat
  target_width : Nat
  target_height : Nat
  video_quality : Nat
  max_cache_size_mb : Nat
  cache_max_age_days : Nat
deriving DecidableEq, Repr

/-- Embeds `animation::Animation` (the `duration` field, never read by the core,
is omitted). -/
structure Animation where
  id : String
  name : String
  path : String
  animation_type : AnimationType
  optimized_path : Option String
deriving DecidableEq, Repr

/-- Embeds `steam_monitor::SteamEvent`. -/
inductive SteamEvent
  | Starting
  | Suspending
  | Resuming
  | Shutdown
deriving DecidableEq, Repr

/-- Embeds `steam_monitor::SystemEvent` (journal-derived suspend/resume markers). -/
inductive SystemEvent
  | Suspend
  | Resume
deriving DecidableEq, Repr

/-! ## Video processor (`video_processor.rs`) -/

/-- Source-file metadata as read by `fs::metadata` in `generate_cache_key`:
byte length (`metadata.len()`) and modification time in whole seconds since
the epoch (`modified().duration_since(UNIX_EPOCH).as_secs()`); `none` for
the modification time models the `Err` branches, in which no mtime bytes
are hashed. -/
structure FileMeta where
  len : Nat
  modified : Option Nat
deriving DecidableEq, Repr

/-- UTF-8 encoding of one code point. -/
def utf8EncodeCharNat (c : Nat) : List Nat :=
  if c < 0x80 then [c]
  else if c < 0x800 then
    [0xC0 ||| (c >>> 6), 0x80 ||| (c &&& 0x3F)]
  else if c < 0x10000 then
    [0xE0 ||| (c >>> 12), 0x80 ||| ((c >>> 6) &&& 0x3F), 0x80 ||| (c &&& 0x3F)]
  else
    [0xF0 ||| (c >>> 18), 0x80 ||| ((c >>> 12) &&& 0x3F),
     0x80 ||| ((c >>> 6) &&& 0x3F), 0x80 ||| (c &&& 0x3F)]

/-- UTF-8 bytes of a string (`Path::to_string_lossy().as_bytes()`). -/
def strBytes (s : String) : List Nat :=
  (s.toList.map (fun c => utf8EncodeCharNat c.toNat)).flatten

/-- The exact byte sequence fed to the hasher by `generate_cache_key`:
path bytes, `len.to_le_bytes()` (u64), optionally the mtime seconds
(u64 LE), then `max_animation_duration.as_secs()` (u64 LE), `target_width`
(u32 LE), `target_height` (u32 LE), `video_quality` (u32 LE). -/
def cacheKeyMessage (cfg : Config) (inputPath : String) (meta : FileMeta) : List Nat :=
  strBytes inputPath
    ++ u64le meta.len
    ++ (match meta.modified with
        | some t => u64le t
        | none => [])
    ++ u64le cfg.max_animation_duration
    ++ u32le cfg.target_width
    ++ u32le cfg.target_height
    ++ u32le cfg.video_quality

/-- The characters of the cache key: first 16 characters of the lower-case
hex rendering of the SHA-256 digest (`format!("{:x}", result)[..16]`). -/
def cacheKeyChars (cfg : Config) (inputPath : String) (meta : FileMeta) : List Char :=
  (hexChars (sha256 (cacheKeyMessage cfg inputPath meta))).take 16

/-- Embeds `VideoProcessor::generate_cache_key`. -/
def generate_cache_key (cfg : Config) (inputPath : String) (meta : FileMeta) : String :=
  String.mk (cacheKeyChars cfg inputPath meta)

/-- State of the cache root as the video processor observes it: which paths
exist, plus an instrumentation counter of how many times the external
`ffmpeg` transcoder has been invoked. -/
structure CacheState where
  files : List String
  transcodeCount : Nat
deriving DecidableEq, Repr

/-- Failure modes of `optimize_animation`. -/
inductive VPError
  | metadataFailed
  | ffmpegFailed
deriving DecidableEq, Repr

/-- Embeds `VideoProcessor::optimize_animation`.  `meta` is the result of
`fs::metadata` on the source; `transcodeOk` is the outcome of the external
`ffmpeg` run in `process_video` (`true` = exited successfully within the
timeout with a non-empty output file, which is exactly when the cache file
comes into existence; on failure the error propagates and no cache entry
is published). -/
def optimize_animation (cfg : Config) (anim : Animation) (meta : Option FileMeta)
    (transcodeOk : Bool) (s : CacheState) : Except VPError String × CacheState :=
  match meta with
  | none => (.error .metadataFailed, s)
  | some m =>
    let cache_key := generate_cache_key cfg anim.path m
    let cached_path := cfg.animation_cache_path ++ "/" ++ cache_key ++ ".webm"
    if cached_path ∈ s.files then
      (.ok cached_path, s)
    else
      let s1 : CacheState := { s with transcodeCount := s.transcodeCount + 1 }
      if transcodeOk then
        (.ok cached_path, { s1 with files := cached_path :: s1.files })
      else
        (.error .ffmpegFailed, s1)

/-- One regular file found under the cache root during `cleanup_cache`:
path, size in bytes, modification time in seconds since the epoch
(`modified()`'s error case maps to `UNIX_EPOCH`, i.e. `0`). -/
structure CacheFile where
  path : String
  size : Nat
  modified : Nat
deriving DecidableEq, Repr

/-- The eviction walk of `cleanup_cache`: oldest-first over the sorted
entries, removing a file when its age exceeds `maxAge` or the running
total exceeds `maxSize`; a successful removal subtracts the file's size
from the running total, a failed removal (`deleteOk` false) is logged and
skipped.  Returns the deleted paths in deletion order. -/
def sweepGo (maxSize maxAge now : Nat) (deleteOk : String → Bool) :
    List CacheFile → Nat → List String → List String
  | [], _, deleted => deleted.reverse
  | f :: rest, total, deleted =>
    let shouldRemove :=
      if f.modified ≤ now then
        decide (now - f.modified > maxAge) || decide (total > maxSize)
      else false
    if shouldRemove then
      if deleteOk f.path then
        sweepGo maxSize maxAge now deleteOk rest (total - f.size) (f.path :: deleted)
      else
        sweepGo maxSize maxAge now deleteOk rest total deleted
    else
      sweepGo maxSize maxAge now deleteOk rest total deleted

/-- Ascending comparison on modification time, the key order of the
sweep's `sort_by_key`. -/
def mtimeLE (a b : CacheFile) : Prop := a.modified ≤ b.modified

instance : DecidableRel mtimeLE := fun a b => Nat.decLe a.modified b.modified

instance : IsTotal CacheFile mtimeLE := ⟨fun a b => Nat.le_total a.modified b.modified⟩

instance : IsTrans CacheFile mtimeLE := ⟨fun _ _ _ h1 h2 => Nat.le_trans h1 h2⟩

/-- Embeds `VideoProcessor::cleanup_cache`.  `dir` is the directory listing of the
cache root restricted to regular files whose metadata was readable (the
code skips the rest); `now` is `SystemTime::now()` in seconds; `deleteOk`
gives the outcome of each `fs::remove_file`.  Entries are sorted ascending
by modification time with a stable sort (as `sort_by_key`), the total size
is the sum over all entries, and the walk is `sweepGo`. -/
def cleanup_cache (cfg : Config) (now : Nat) (dir : List CacheFile)
    (deleteOk : String → Bool) : List String :=
  let maxSize := cfg.max_cache_size_mb * 1024 * 1024
  let maxAge := cfg.cache_max_age_days * 24 * 3600
  let entries := List.insertionSort mtimeLE dir
  let total := (dir.map (fun f => f.size)).sum
  sweepGo maxSize maxAge now deleteOk entries total []

/-! ## Animation manager (`animation.rs`)

The manager's two `HashMap`s are modelled as association lists with
first-match lookup (`HashMap::insert` becomes a cons, which is
observationally the same through `lookup`).  The randomness of
`SliceRandom::choose` is modelled by an explicit `rng : Nat` parameter
selecting an index into the candidate list, and the nondeterministic
`HashMap` iteration order by the association-list order, so every possible
draw of the Rust code is some value of the parameters.  Outcomes of
external effects (`fs::metadata`, `ffmpeg`, `mount`, `umount`,
`fs::write`, `fs::remove_file`) are explicit parameters. -/

/-- Embeds `animation::AnimationManager` (the in-memory state the embedded methods
read and write; the cache-root state lives in `CacheState`). -/
structure AnimationManager where
  config : Config
  animations : List (String × Animation)
  current_animations : List (AnimationType × Option String)
  steam_override_path : String
deriving DecidableEq, Repr

/-- Embeds `AnimationManager::get_steam_target_path`. -/
def get_steam_target_path (m : AnimationManager) (anim_type : AnimationType) : String :=
  let filename :=
    match anim_type with
    | .Boot => "deck_startup.webm"
    | .Suspend => "steam_os_suspend.webm"
    | .Throbber => "steam_os_suspend_from_throbber.webm"
  m.steam_override_path ++ "/" ++ filename

/-- Embeds `AnimationManager::select_random_animation`: filter the catalog to the
requested type, drop excluded ids, and pick one of the candidates (`none`
when there is no candidate).  `rng` selects which candidate the
`choose(&mut rng)` call returns. -/
def select_random_animation (m : AnimationManager) (anim_type : AnimationType)
    (rng : Nat) : Option String :=
  let candidates :=
    ((m.animations.filter (fun kv => kv.2.animation_type == anim_type)).filter
      (fun kv => !(m.config.shuffle_exclusions.contains kv.1))).map (fun kv => kv.1)
  if candidates.isEmpty then none
  else candidates[rng % candidates.length]?

/-- Embeds `AnimationManager::select_random_from_set`: falls back to per-animation
randomization. -/
def select_random_from_set (m : AnimationManager) (anim_type : AnimationType)
    (rng : Nat) : Option String :=
  select_random_animation m anim_type rng

/-- Outcomes of the external effects of one `mount_animation` call. -/
structure MountEnv where
  targetExists : Bool
  removeOk : Bool
  writeOk : Bool
  bindOk : Bool
deriving DecidableEq, Repr

/-- Failure modes of `mount_animation` (`umount` failure is only logged). -/
inductive MountError
  | removeFailed
  | writeFailed
  | bindFailed
deriving DecidableEq, Repr

/-- Embeds `AnimationManager::unmount_animation`: `umount` is best-effort (its
failure is only logged); removing the target file can fail and propagates. -/
def unmount_animation (env : MountEnv) : Except MountError Unit :=
  if env.targetExists ∧ ¬ env.removeOk then .error .removeFailed else .ok ()

/-- Embeds `AnimationManager::mount_animation`: unmount any existing target, write
a fresh empty placeholder, then `mount --bind`; a non-success exit of
`mount` is an error. -/
def mount_animation (env : MountEnv) : Except MountError Unit :=
  match (if env.targetExists then unmount_animation env else .ok ()) with
  | .error e => .error e
  | .ok _ =>
    if !env.writeOk then .error .writeFailed
    else if env.bindOk then .ok ()
    else .error .bindFailed

/-- Failure modes of `apply_animation`. -/
inductive ApplyError
  | animationNotFound
  | optimizeFailed (e : VPError)
  | mountFailed (e : MountError)
deriving DecidableEq, Repr

/-- External outcomes threaded through one `apply_animation` call. -/
structure ApplyEnv where
  meta : Option FileMeta
  transcodeOk : Bool
  mount : MountEnv
deriving DecidableEq, Repr

/-- The `get_mut` update of the catalog entry's `optimized_path` after a
successful transcode. -/
def setOptimizedPath (l : List (String × Animation)) (id p : String) :
    List (String × Animation) :=
  l.map (fun kv =>
    if kv.1 == id then (kv.1, { kv.2 with optimized_path := some p }) else kv)

/-- Embeds `AnimationManager::apply_animation`: resolve the catalog entry, obtain a
source path (reusing `optimized_path` or transcoding via
`optimize_animation`, recording the result), bind-mount it onto the target
for `anim_type`, and only on mount success record the id in
`current_animations`.  Every `?` failure returns with the state mutated so
far. -/
def apply_animation (m : AnimationManager) (cache : CacheState) (env : ApplyEnv)
    (anim_type : AnimationType) (animation_id : String) :
    AnimationManager × CacheState × Except ApplyError Unit :=
  match List.lookup animation_id m.animations with
  | none => (m, cache, .error .animationNotFound)
  | some animation =>
    match animation.optimized_path with
    | some _ =>
      match mount_animation env.mount with
      | .error e => (m, cache, .error (.mountFailed e))
      | .ok _ =>
          ({ m with current_animations := (anim_type, some animation_id) :: m.current_animations },
           cache, .ok ())
    | none =>
      match optimize_animation m.config animation env.meta env.transcodeOk cache with
      | (.error e, cache1) => (m, cache1, .error (.optimizeFailed e))
      | (.ok optimized_path, cache1) =>
        let m1 : AnimationManager :=
          { m with animations := setOptimizedPath m.animations animation_id optimized_path }
        match mount_animation env.mount with
        | .error e => (m1, cache1, .error (.mountFailed e))
        | .ok _ =>
            ({ m1 with current_animations := (anim_type, some animation_id) :: m1.current_animations },
             cache1, .ok ())

/-- The animation-id selection of `prepare_boot_animation`, per
`randomize_mode`. -/
def boot_animation_selection (m : AnimationManager) (rng : Nat) : Option String :=
  match m.config.randomize_mode with
  | .Disabled => m.config.current_boot_animation
  | .PerBoot => select_random_animation m .Boot rng
  | .PerSet => select_random_from_set m .Boot rng

/-- Embeds `AnimationManager::prepare_boot_animation`. -/
def prepare_boot_animation (m : AnimationManager) (cache : CacheState) (rng : Nat)
    (env : ApplyEnv) : AnimationManager × CacheState × Except ApplyError Unit :=
  match boot_animation_selection m rng with
  | some id => apply_animation m cache env .Boot id
  | none => (m, cache, .ok ())

/-- The animation-id selection of `prepare_suspend_animation`: the
configured suspend id, or else (`or_else`) a random suspend-type catalog
entry — note this does not consult `randomize_mode`. -/
def suspend_animation_selection (m : AnimationManager) (rng : Nat) : Option String :=
  m.config.current_suspend_animation.or (select_random_animation m .Suspend rng)

/-- Embeds `AnimationManager::prepare_suspend_animation`. -/
def prepare_suspend_animation (m : AnimationManager) (cache : CacheState) (rng : Nat)
    (env : ApplyEnv) : AnimationManager × CacheState × Except ApplyError Unit :=
  match suspend_animation_selection m rng with
  | some id => apply_animation m cache env .Suspend id
  | none => (m, cache, .ok ())

/-- Embeds `AnimationManager::prepare_resume_animation`: resume reuses the boot
animation preparation verbatim. -/
def prepare_resume_animation (m : AnimationManager) (cache : CacheState) (rng : Nat)
    (env : ApplyEnv) : AnimationManager × CacheState × Except ApplyError Unit :=
  prepare_boot_animation m cache rng env

/-- Embeds `AnimationManager::cleanup`: best-effort unmount of every target path;
every per-type failure is caught and logged, so it always returns `Ok` and
leaves the in-memory state unchanged (the filesystem effects on the mount
points are outside the embedded state). -/
def cleanup (m : AnimationManager) (cache : CacheState) :
    AnimationManager × CacheState × Except ApplyError Unit :=
  (m, cache, .ok ())

/-! ## Steam monitor (`steam_monitor.rs`) -/

/-- One row of the process-table snapshot: pid and command line; `none` for
the command line models a failing `process.cmdline()` (skipped). -/
structure PEntry where
  pid : Int
  cmdline : Option (List String)
deriving DecidableEq, Repr

/-- Substring test, as `str::contains`. -/
def strContains (s pat : String) : Bool :=
  s.toList.tails.any (fun t => pat.toList.isPrefixOf t)

/-- The pid set `check_steam_processes` builds from one snapshot: pids of
processes (skipping rows whose `Result` or `cmdline()` failed) some
command-line argument of which contains `"steam"`. -/
def snapshotPids (procs : List (Option PEntry)) : Finset ℤ :=
  procs.foldl (fun acc p =>
    match p with
    | none => acc
    | some pr =>
      match pr.cmdline with
      | none => acc
      | some args =>
        if args.any (fun a => strContains a "steam") then insert pr.pid acc else acc) ∅

/-- Failure of `all_processes()`. -/
inductive ProcError
  | enumerationFailed
deriving DecidableEq, Repr

/-- Embeds `steam_monitor::SteamMonitor`'s mutable state. -/
structure SteamMonitor where
  current_steam_pids : Finset ℤ
  was_suspended : Bool
deriving DecidableEq

/-- Embeds `SteamMonitor::check_steam_processes`: on a failed enumeration the `?`
propagates the error (before any state change); otherwise emit `Starting`
when new pids appeared and the previous set was empty, `Shutdown` when
pids disappeared and the new set is empty, then store the new set. -/
def check_steam_processes (st : SteamMonitor)
    (snapshot : Except ProcError (List (Option PEntry))) :
    Except ProcError (SteamMonitor × List SteamEvent) :=
  match snapshot with
  | .error e => .error e
  | .ok procs =>
    let current_pids := snapshotPids procs
    let new_pids := current_pids \ st.current_steam_pids
    let startEvents :=
      if new_pids ≠ ∅ ∧ st.current_steam_pids = ∅ then [SteamEvent.Starting] else []
    let removed_pids := st.current_steam_pids \ current_pids
    let shutdownEvents :=
      if removed_pids ≠ ∅ ∧ current_pids = ∅ then [SteamEvent.Shutdown] else []
    .ok ({ st with current_steam_pids := current_pids }, startEvents ++ shutdownEvents)

/-- The polling half of `SteamMonitor::start_monitoring`: one
`check_steam_processes` per tick, whose `?` terminates the monitoring loop
at the first enumeration error.  Returns the final state, the events
emitted, and the terminating error if any. -/
def start_monitoring_poll (st : SteamMonitor) :
    List (Except ProcError (List (Option PEntry))) →
    SteamMonitor × List SteamEvent × Option ProcError
  | [] => (st, [], none)
  | snap :: rest =>
    match check_steam_processes st snap with
    | .error e => (st, [], some e)
    | .ok (st1, evs) =>
      let r := start_monitoring_poll st1 rest
      (r.1, evs ++ r.2.1, r.2.2)

/-- The journal half of `SteamMonitor::start_monitoring`: the
`was_suspended` guard machine, one `SystemEvent` at a time. -/
def journal_step (was_suspended : Bool) : SystemEvent → Bool × List SteamEvent
  | .Suspend => (true, [SteamEvent.Suspending])
  | .Resume =>
    if was_suspended then (false, [SteamEvent.Resuming]) else (was_suspended, [])

/-- The journal machine run over a marker sequence. -/
def journal_run (was_suspended : Bool) : List SystemEvent → Bool × List SteamEvent
  | [] => (was_suspended, [])
  | e :: rest =>
    let s := journal_step was_suspended e
    let r := journal_run s.1 rest
    (r.1, s.2 ++ r.2)

/-! ## Daemon loop (`main.rs`) -/

/-- The parameters of one event dispatch (randomness draw plus external
outcomes of the apply it triggers). -/
structure EventEnv where
  rng : Nat
  apply : ApplyEnv
deriving DecidableEq, Repr

/-- One arm of the `match` in `run_daemon`'s event branch. -/
def dispatch_event (m : AnimationManager) (cache : CacheState) (env : EventEnv) :
    SteamEvent → AnimationManager × CacheState × Except ApplyError Unit
  | .Starting => prepare_boot_animation m cache env.rng env.apply
  | .Suspending => prepare_suspend_animation m cache env.rng env.apply
  | .Resuming => prepare_resume_animation m cache env.rng env.apply
  | .Shutdown => cleanup m cache

/-- The event-dispatch loop of `run_daemon`: each received event is handled
with a `?`, so the first handler error returns out of `run_daemon`,
terminating the loop.  Returns final state, the loop's result, and how
many events were handled. -/
def run_daemon (m : AnimationManager) (cache : CacheState) :
    List (SteamEvent × EventEnv) →
    AnimationManager × CacheState × Except ApplyError Unit × Nat
  | [] => (m, cache, .ok (), 0)
  | (e, env) :: rest =>
    match dispatch_event m cache env e with
    | (m1, cache1, .error err) => (m1, cache1, .error err, 1)
    | (m1, cache1, .ok _) =>
      let r := run_daemon m1 cache1 rest
      (r.1, r.2.1, r.2.2.1, r.2.2.2 + 1)

/-! ## Example fixtures (shared by witnesses and counterexamples) -/

/-- A configuration in `Disabled` mode with a configured boot animation and
no configured suspend animation (the `config.toml` defaults except for the
boot id and shorter paths). -/
def exCfg : Config :=
  { steam_override_path := "/ov"
    animation_cache_path := "/cache"
    current_boot_animation := some "set1/deck_startup.webm"
    current_suspend_animation := none
    current_throbber_animation := none
    randomize_mode := .Disabled
    shuffle_exclusions := []
    max_animation_duration := 5
    target_width := 1280
    target_height := 720
    video_quality := 23
    max_cache_size_mb := 500
    cache_max_age_days := 30 }

/-- A boot catalog entry, as `load_animation_set` builds it. -/
def exBootAnim : Animation :=
  { id := "set1/deck_startup.webm", name := "set1",
    path := "/anims/set1/deck_startup.webm", animation_type := .Boot,
    optimized_path := none }

/-- A suspend catalog entry, as `load_animation_set` builds it. -/
def exSuspendAnim : Animation :=
  { id := "set1/steam_os_suspend.webm", name := "set1 - Suspend",
    path := "/anims/set1/steam_os_suspend.webm", animation_type := .Suspend,
    optimized_path := none }

/-- A freshly initialised manager over that catalog. -/
def exManager : AnimationManager :=
  { config := exCfg
    animations := [(exBootAnim.id, exBootAnim), (exSuspendAnim.id, exSuspendAnim)]
    current_animations := []
    steam_override_path := "/ov" }

/-- Source metadata used by the examples. -/
def exMeta : FileMeta := ⟨1000, some 1700000000⟩

/-- Apply environment in which every external step succeeds. -/
def exApplyOk : ApplyEnv := ⟨some exMeta, true, ⟨false, true, true, true⟩⟩

/-- The `mount --bind` step fails; everything before it succeeds. -/
def exApplyBindFail : ApplyEnv := ⟨some exMeta, true, ⟨false, true, true, false⟩⟩

/-- Dispatch environments built from the two apply environments. -/
def exEnvOk : EventEnv := ⟨0, exApplyOk⟩

/-- Dispatch environment whose apply fails at the bind step. -/
def exEnvBindFail : EventEnv := ⟨0, exApplyBindFail⟩

/-- A monitor that has seen no Steam process and no suspend marker. -/
def exMonitorIdle : SteamMonitor := ⟨∅, false⟩

/-- A snapshot with one Steam process. -/
def exSteamSnap : List (Option PEntry) := [some ⟨123, some ["/usr/bin/steam"]⟩]

/-! ## Detector claims (C3, C7, C8) -/

/-- The per-tick event rule as the specification words it: `Starting`
exactly on an empty→non-empty transition of the matching-pid set,
`Shutdown` exactly on a non-empty→empty transition, nothing otherwise. -/
def tickSpec (prev cur : Finset ℤ) : List SteamEvent :=
  if prev = ∅ ∧ cur ≠ ∅ then [SteamEvent.Starting]
  else if prev ≠ ∅ ∧ cur = ∅ then [SteamEvent.Shutdown]
  else []

/-- A successful tick stores the new pid set and emits exactly the events
of `tickSpec`. -/
theorem check_tick_eq (st : SteamMonitor) (procs : List (Option PEntry)) :
    check_steam_processes st (.ok procs) =
      .ok ({ st with current_steam_pids := snapshotPids procs },
           tickSpec st.current_steam_pids (snapshotPids procs)) := by
  unfold check_steam_processes tickSpec
  by_cases hp : st.current_steam_pids = ∅ <;>
    by_cases hc : snapshotPids procs = ∅ <;>
      simp [hp, hc, Finset.sdiff_empty, Finset.empty_sdiff, Finset.sdiff_eq_empty_iff_subset]

/-- Number of empty→non-empty transitions along a pid-set trace. -/
def countUp : Finset ℤ → List (Finset ℤ) → Nat
  | _, [] => 0
  | prev, cur :: rest => (if prev = ∅ ∧ cur ≠ ∅ then 1 else 0) + countUp cur rest

/-- Number of non-empty→empty transitions along a pid-set trace. -/
def countDown : Finset ℤ → List (Finset ℤ) → Nat
  | _, [] => 0
  | prev, cur :: rest => (if prev ≠ ∅ ∧ cur = ∅ then 1 else 0) + countDown cur rest

theorem tickSpec_count_starting (prev cur : Finset ℤ) :
    (tickSpec prev cur).count SteamEvent.Starting =
      if prev = ∅ ∧ cur ≠ ∅ then 1 else 0 := by
  unfold tickSpec
  by_cases hp : prev = ∅ <;> by_cases hc : cur = ∅ <;> simp [hp, hc]

theorem tickSpec_count_shutdown (prev cur : Finset ℤ) :
    (tickSpec prev cur).count SteamEvent.Shutdown =
      if prev ≠ ∅ ∧ cur = ∅ then 1 else 0 := by
  unfold tickSpec
  by_cases hp : prev = ∅ <;> by_cases hc : cur = ∅ <;> simp [hp, hc]

theorem poll_count_starting (st : SteamMonitor) (snaps : List (List (Option PEntry))) :
    (start_monitoring_poll st (snaps.map Except.ok)).2.1.count SteamEvent.Starting =
      countUp st.current_steam_pids (snaps.map snapshotPids) := by
  induction snaps generalizing st with
  | nil => simp [start_monitoring_poll, countUp]
  | cons s rest ih =>
    simp only [List.map_cons, start_monitoring_poll, check_tick_eq, countUp,
      List.count_append, ih, tickSpec_count_starting]

theorem poll_count_shutdown (st : SteamMonitor) (snaps : List (List (Option PEntry))) :
    (start_monitoring_poll st (snaps.map Except.ok)).2.1.count SteamEvent.Shutdown =
      countDown st.current_steam_pids (snaps.map snapshotPids) := by
  induction snaps generalizing st with
  | nil => simp [start_monitoring_poll, countDown]
  | cons s rest ih =>
    simp only [List.map_cons, start_monitoring_poll, check_tick_eq, countDown,
      List.count_append, ih, tickSpec_count_shutdown]

/-- C7: For every sequence of process-table snapshots, each tick emits
exactly the events of the transition rule — `Starting` iff the matching-pid
set goes empty→non-empty, `Shutdown` iff it goes non-empty→empty, nothing
when the set stays empty or stays non-empty (even under partial membership
changes) — so over a whole error-free polling run the number of `Starting`
events equals the number of empty→non-empty transitions and the number of
`Shutdown` events equals the number of non-empty→empty transitions. -/
theorem C7_transition_events (st : SteamMonitor) (procs : List (Option PEntry))
    (snaps : List (List (Option PEntry))) :
    check_steam_processes st (.ok procs) =
      .ok ({ st with current_steam_pids := snapshotPids procs },
           tickSpec st.current_steam_pids (snapshotPids procs)) ∧
    (start_monitoring_poll st (snaps.map Except.ok)).2.1.count SteamEvent.Starting =
      countUp st.current_steam_pids (snaps.map snapshotPids) ∧
    (start_monitoring_poll st (snaps.map Except.ok)).2.1.count SteamEvent.Shutdown =
      countDown st.current_steam_pids (snaps.map snapshotPids) :=
  ⟨check_tick_eq st procs, poll_count_starting st snaps, poll_count_shutdown st snaps⟩

/-- C3 status (amended behaviour): an enumeration failure on a tick leaves
`current_steam_pids` unchanged and emits nothing, but the error propagates
out of the monitoring loop and terminates it — the remaining ticks are
never processed. -/
theorem C3_poll_error_terminates (st : SteamMonitor) (e : ProcError)
    (rest : List (Except ProcError (List (Option PEntry)))) :
    start_monitoring_poll st (Except.error e :: rest) = (st, [], some e) :=
  rfl

/-- C3 counterexample: with no Steam process recorded, a failing
enumeration tick followed by a snapshot containing a Steam process yields
no event at all and ends the loop with the error — the claimed
"logged and skipped, loop continues" behaviour would instead have emitted
`Starting` on the second tick, as the second conjunct (the same run
without the failing tick) shows. -/
theorem C3_counterexample :
    start_monitoring_poll exMonitorIdle
        [Except.error ProcError.enumerationFailed, Except.ok exSteamSnap] =
      (exMonitorIdle, [], some ProcError.enumerationFailed) ∧
    start_monitoring_poll exMonitorIdle [Except.ok exSteamSnap] =
      (⟨{(123 : ℤ)}, false⟩, [SteamEvent.Starting], none) := by
  constructor
  · rfl
  · decide

/-- Count of `Resuming` outputs is bounded by the suspend markers seen,
plus one pending credit when the guard is already set. -/
theorem journal_resume_bound (b : Bool) (es : List SystemEvent) :
    (journal_run b es).2.count SteamEvent.Resuming ≤
      es.count SystemEvent.Suspend + (if b then 1 else 0) := by
  induction es generalizing b with
  | nil => simp [journal_run]
  | cons e rest ih =>
    cases e with
    | Suspend =>
      simp only [journal_run, journal_step, List.count_append, List.count_cons]
      have h := ih true
      simp only [if_pos] at h ⊢
      simp [List.count_cons, SystemEvent.Suspend.sizeOf_spec]
      omega
    | Resume =>
      cases b with
      | true =>
        simp only [journal_run, journal_step, if_pos, List.count_append, List.count_cons]
        have h := ih false
        simp at h ⊢
        omega
      | false =>
        simp only [journal_run, journal_step, if_neg, List.count_append]
        have h := ih false
        simp at h ⊢
        omega

/-- C8: a `Resuming` event is only produced while the `was_suspended`
guard is set; producing it clears the guard; a resume marker with the
guard clear is discarded; hence in every run from a clear guard the number
of `Resuming` events never exceeds the number of suspend markers, and the
concrete trace suspend–resume–resume produces exactly one `Resuming`. -/
theorem C8_resume_guard (es : List SystemEvent) :
    (∀ b, journal_step b SystemEvent.Suspend = (true, [SteamEvent.Suspending])) ∧
    journal_step true SystemEvent.Resume = (false, [SteamEvent.Resuming]) ∧
    journal_step false SystemEvent.Resume = (false, []) ∧
    (journal_run false es).2.count SteamEvent.Resuming ≤ es.count SystemEvent.Suspend ∧
    journal_run false [SystemEvent.Suspend, SystemEvent.Resume, SystemEvent.Resume] =
      (false, [SteamEvent.Suspending, SteamEvent.Resuming]) := by
  refine ⟨fun b => rfl, rfl, rfl, ?_, rfl⟩
  have h := journal_resume_bound false es
  simpa using h

/-! ## Mount-controller claims (C1, C2, C9, C10) -/

instance {ε α : Type} [DecidableEq ε] [DecidableEq α] : DecidableEq (Except ε α) :=
  fun a b =>
    match a, b with
    | .ok x, .ok y =>
      if h : x = y then isTrue (by rw [h]) else isFalse (by simp [h])
    | .error x, .error y =>
      if h : x = y then isTrue (by rw [h]) else isFalse (by simp [h])
    | .ok _, .error _ => isFalse (by simp)
    | .error _, .ok _ => isFalse (by simp)

/-- Shared case analysis of `apply_animation`: either every step succeeded
and the call returned `Ok` with the id recorded for its type, or some step
failed, the call returned that error, and the active-animation table is
untouched. -/
theorem apply_animation_cases (m : AnimationManager) (cache : CacheState)
    (env : ApplyEnv) (t : AnimationType) (id : String) :
    ((apply_animation m cache env t id).2.2 = Except.ok () ∧
      (apply_animation m cache env t id).1.current_animations =
        (t, some id) :: m.current_animations) ∨
    ((∃ err, (apply_animation m cache env t id).2.2 = Except.error err) ∧
      (apply_animation m cache env t id).1.current_animations =
        m.current_animations) := by
  cases hl : List.lookup id m.animations with
  | none =>
    right
    refine ⟨⟨.animationNotFound, ?_⟩, ?_⟩ <;> simp [apply_animation, hl]
  | some animation =>
    cases ho : animation.optimized_path with
    | some p =>
      cases hm : mount_animation env.mount with
      | error e =>
        right
        refine ⟨⟨.mountFailed e, ?_⟩, ?_⟩ <;> simp [apply_animation, hl, ho, hm]
      | ok u =>
        left
        constructor <;> simp [apply_animation, hl, ho, hm]
    | none =>
      rcases hopt : optimize_animation m.config animation env.meta env.transcodeOk cache
        with ⟨r, cache1⟩
      cases r with
      | error e =>
        right
        refine ⟨⟨.optimizeFailed e, ?_⟩, ?_⟩ <;> simp [apply_animation, hl, ho, hopt]
      | ok p =>
        cases hm : mount_animation env.mount with
        | error e =>
          right
          refine ⟨⟨.mountFailed e, ?_⟩, ?_⟩ <;> simp [apply_animation, hl, ho, hopt, hm]
        | ok u =>
          left
          constructor <;> simp [apply_animation, hl, ho, hopt, hm]

/-- C9: the active-animation table entry for the type being applied is
written only after the bind mount reports success; a transcoding or mount
failure (or a missing catalog entry) leaves the table exactly as before
the apply attempt. -/
theorem C9_table_updated_only_on_mount_success (m : AnimationManager)
    (cache : CacheState) (env : ApplyEnv) (t : AnimationType) (id : String) :
    ((apply_animation m cache env t id).2.2 = Except.ok () →
      (apply_animation m cache env t id).1.current_animations =
        (t, some id) :: m.current_animations) ∧
    (∀ err, (apply_animation m cache env t id).2.2 = Except.error err →
      (apply_animation m cache env t id).1.current_animations =
        m.current_animations) := by
  rcases apply_animation_cases m cache env t id with ⟨hok, htbl⟩ | ⟨⟨err, herr⟩, htbl⟩
  · refine ⟨fun _ => htbl, fun err h => ?_⟩
    rw [hok] at h
    simp at h
  · refine ⟨fun h => ?_, fun _ _ => htbl⟩
    rw [herr] at h
    simp at h

/-- C9 witness: with the example catalog, a failing bind leaves the table
unchanged, and a fully successful apply records the boot id. -/
theorem C9_table_updated_only_on_mount_success_witness :
    (apply_animation exManager ⟨[], 0⟩ exApplyBindFail AnimationType.Boot
        exBootAnim.id).1.current_animations = exManager.current_animations ∧
    (apply_animation exManager ⟨[], 0⟩ exApplyOk AnimationType.Boot
        exBootAnim.id).1.current_animations =
      (AnimationType.Boot, some exBootAnim.id) :: exManager.current_animations :=
  ⟨(C9_table_updated_only_on_mount_success exManager ⟨[], 0⟩ exApplyBindFail
      AnimationType.Boot exBootAnim.id).2
        (ApplyError.mountFailed MountError.bindFailed) (by decide),
   (C9_table_updated_only_on_mount_success exManager ⟨[], 0⟩ exApplyOk
      AnimationType.Boot exBootAnim.id).1 (by decide)⟩

/-- C10: handling `Resuming` is literally the boot preparation: the same
selection-and-apply as `Starting`, targeting the `Boot` slot (whose target
path is `<override>/deck_startup.webm`), and the `Suspend` and `Throbber`
entries of the active-animation table are never modified by it. -/
theorem C10_resume_is_boot (m : AnimationManager) (cache : CacheState)
    (rng : Nat) (env : ApplyEnv) (ee : EventEnv) :
    prepare_resume_animation m cache rng env = prepare_boot_animation m cache rng env ∧
    dispatch_event m cache ee SteamEvent.Resuming =
      prepare_boot_animation m cache ee.rng ee.apply ∧
    List.lookup AnimationType.Suspend
        (prepare_resume_animation m cache rng env).1.current_animations =
      List.lookup AnimationType.Suspend m.current_animations ∧
    List.lookup AnimationType.Throbber
        (prepare_resume_animation m cache rng env).1.current_animations =
      List.lookup AnimationType.Throbber m.current_animations ∧
    get_steam_target_path m AnimationType.Boot =
      m.steam_override_path ++ "/" ++ "deck_startup.webm" := by
  have pres : ∀ k : AnimationType, (k == AnimationType.Boot) = false →
      List.lookup k (prepare_boot_animation m cache rng env).1.current_animations =
        List.lookup k m.current_animations := by
    intro k hk
    unfold prepare_boot_animation
    cases boot_animation_selection m rng with
    | none => rfl
    | some id =>
      rcases apply_animation_cases m cache env AnimationType.Boot id with ⟨_, htbl⟩ | ⟨_, htbl⟩
      · rw [htbl]
        simp [List.lookup, hk]
      · rw [htbl]
  exact ⟨rfl, rfl, pres AnimationType.Suspend rfl, pres AnimationType.Throbber rfl, rfl⟩

/-- C2 status (amended behaviour): in `Disabled` mode the boot selection is
exactly the configured boot id; the suspend selection ignores the mode —
it is the configured suspend id when one is set, and otherwise falls back
to a random draw among the suspend-type catalog entries. -/
theorem C2_disabled_selection (m : AnimationManager) (rng : Nat)
    (hmode : m.config.randomize_mode = RandomizeMode.Disabled) :
    boot_animation_selection m rng = m.config.current_boot_animation ∧
    (∀ id, m.config.current_suspend_animation = some id →
      suspend_animation_selection m rng = some id) ∧
    (m.config.current_suspend_animation = none →
      suspend_animation_selection m rng =
        select_random_animation m AnimationType.Suspend rng) := by
  refine ⟨?_, ?_, ?_⟩
  · unfold boot_animation_selection
    rw [hmode]
  · intro id hid
    unfold suspend_animation_selection
    rw [hid]
    rfl
  · intro hid
    unfold suspend_animation_selection
    rw [hid]
    rfl

/-- C2 witness: on the example manager the boot selection in `Disabled`
mode is the configured boot id, and with no configured suspend id the
suspend selection equals the random draw. -/
theorem C2_disabled_selection_witness :
    boot_animation_selection exManager 0 = some "set1/deck_startup.webm" ∧
    suspend_animation_selection exManager 0 =
      select_random_animation exManager AnimationType.Suspend 0 :=
  ⟨by rw [(C2_disabled_selection exManager 0 (by decide)).1]; rfl,
   (C2_disabled_selection exManager 0 (by decide)).2.2 rfl⟩

/-- C2 counterexample: in `Disabled` mode with no configured suspend id and
a suspend entry in the catalog, handling a Suspending event performs a
random selection and applies its result: the selected id is
`some "set1/steam_os_suspend.webm"`, not nothing, and after the prepare
the active table maps `Suspend` to that id — contradicting "the configured
suspend id or nothing". -/
theorem C2_counterexample :
    exManager.config.randomize_mode = RandomizeMode.Disabled ∧
    exManager.config.current_suspend_animation = none ∧
    suspend_animation_selection exManager 0 = some "set1/steam_os_suspend.webm" ∧
    List.lookup AnimationType.Suspend
        (prepare_suspend_animation exManager ⟨[], 0⟩ 0 exApplyOk).1.current_animations =
      some (some "set1/steam_os_suspend.webm") := by
  refine ⟨rfl, rfl, by decide, by decide⟩

/-- C1 status (amended behaviour): an operation failure inside an apply is
surfaced to the dispatch loop as a failed apply (`Err` from the handler),
and the `?` in `run_daemon` then returns that error out of the loop after
the failing event: the loop terminates — having handled only that one
event — rather than continuing; `main` merely logs the returned error
before shutting the daemon down. -/
theorem C1_apply_failure_fatal (m : AnimationManager) (cache : CacheState)
    (e : SteamEvent) (env : EventEnv) (rest : List (SteamEvent × EventEnv))
    (err : ApplyError)
    (h : (dispatch_event m cache env e).2.2 = Except.error err) :
    run_daemon m cache ((e, env) :: rest) =
      ((dispatch_event m cache env e).1, (dispatch_event m cache env e).2.1,
       Except.error err, 1) := by
  rcases hd : dispatch_event m cache env e with ⟨m1, cache1, r⟩
  rw [hd] at h
  have hr : r = Except.error err := h
  subst hr
  simp [run_daemon, hd]

/-- C1 witness: the amended behaviour at a concrete failing bind. -/
theorem C1_apply_failure_fatal_witness :
    run_daemon exManager ⟨[], 0⟩ [(SteamEvent.Starting, exEnvBindFail)] =
      ((dispatch_event exManager ⟨[], 0⟩ exEnvBindFail SteamEvent.Starting).1,
       (dispatch_event exManager ⟨[], 0⟩ exEnvBindFail SteamEvent.Starting).2.1,
       Except.error (ApplyError.mountFailed MountError.bindFailed), 1) :=
  C1_apply_failure_fatal exManager ⟨[], 0⟩ SteamEvent.Starting exEnvBindFail []
    (ApplyError.mountFailed MountError.bindFailed) (by decide)

/-- C1 counterexample: a bind failure while handling the first of two
events makes the dispatch loop return the error having handled only one
event — the second (which on its own is handled fine, second conjunct) is
never processed, refuting "non-fatal: the main dispatch loop continues
running". -/
theorem C1_counterexample :
    (run_daemon exManager ⟨[], 0⟩
        [(SteamEvent.Starting, exEnvBindFail), (SteamEvent.Starting, exEnvOk)]).2.2 =
      (Except.error (ApplyError.mountFailed MountError.bindFailed), 1) ∧
    (run_daemon exManager ⟨[], 0⟩ [(SteamEvent.Starting, exEnvOk)]).2.2 =
      (Except.ok (), 1) := by
  exact ⟨by decide, by decide⟩

/-! ## Cache-store claims (C4, C5) -/

/-- The sweep rule in the specification's words: walk oldest-first and
delete a file exactly when, at inspection time, its age exceeds the
maximum or the running total exceeds the byte budget; each deletion
decrements the running total before the next file is evaluated. -/
def sweepSpecWalk (maxSize maxAge now : Nat) : List CacheFile → Nat → List String
  | [], _ => []
  | f :: rest, total =>
    if now - f.modified > maxAge ∨ total > maxSize then
      f.path :: sweepSpecWalk maxSize maxAge now rest (total - f.size)
    else
      sweepSpecWalk maxSize maxAge now rest total

/-- When every walked file has a modification time not in the future and
every deletion succeeds, the code's walk computes exactly the
specification's walk. -/
theorem sweepGo_spec (maxSize maxAge now : Nat) (l : List CacheFile) (total : Nat)
    (acc : List String) (hmt : ∀ f ∈ l, f.modified ≤ now) :
    sweepGo maxSize maxAge now (fun _ => true) l total acc =
      acc.reverse ++ sweepSpecWalk maxSize maxAge now l total := by
  induction l generalizing total acc with
  | nil => simp [sweepGo, sweepSpecWalk]
  | cons f rest ih =>
    have hf : f.modified ≤ now := hmt f (List.mem_cons_self f rest)
    have hrest : ∀ g ∈ rest, g.modified ≤ now :=
      fun g hg => hmt g (List.mem_cons_of_mem f hg)
    simp only [sweepGo, sweepSpecWalk, if_pos hf]
    by_cases hc : now - f.modified > maxAge ∨ total > maxSize
    · have hb : (decide (now - f.modified > maxAge) || decide (total > maxSize)) = true := by
        rcases hc with hc | hc <;> simp [hc]
      rw [hb, if_pos hc]
      simp only [if_pos rfl]
      rw [ih (total - f.size) (f.path :: acc) hrest]
      simp
    · have hb : (decide (now - f.modified > maxAge) || decide (total > maxSize)) = false := by
        push_neg at hc
        simp [Nat.not_lt.mpr hc.1, Nat.not_lt.mpr hc.2]
      rw [hb, if_neg hc]
      simp only [Bool.false_eq_true, if_false]
      exact ih total acc hrest

/-- Sweep example: sizes 10 MB, 20 MB, 30 MB (oldest first, listed
scrambled to exercise the sort), no over-age file. -/
def exSweepDir : List CacheFile :=
  [⟨"/cache/c.webm", 30 * 1024 * 1024, 300⟩,
   ⟨"/cache/a.webm", 10 * 1024 * 1024, 100⟩,
   ⟨"/cache/b.webm", 20 * 1024 * 1024, 200⟩]

/-- The example configuration with a 35 MB cache budget. -/
def exSweepCfg : Config := { exCfg with max_cache_size_mb := 35 }

/-- C4: the sweep sorts the cache listing ascending by modification time
and, walking oldest-first, deletes a file exactly when at inspection time
the running total exceeds the byte budget or the age exceeds the maximum,
decrementing the running total on deletion — so for sizes [10,20,30] MB
(oldest first), a 35 MB budget and no over-age file, exactly the 10 MB and
20 MB entries are deleted and the 30 MB entry remains. -/
theorem C4_sweep_correct (cfg : Config) (now : Nat) (dir : List CacheFile)
    (hmt : ∀ f ∈ dir, f.modified ≤ now) :
    cleanup_cache cfg now dir (fun _ => true) =
      sweepSpecWalk (cfg.max_cache_size_mb * 1024 * 1024)
        (cfg.cache_max_age_days * 24 * 3600) now
        (List.insertionSort mtimeLE dir) ((dir.map (fun f => f.size)).sum) ∧
    List.Sorted mtimeLE (List.insertionSort mtimeLE dir) ∧
    (List.insertionSort mtimeLE dir).Perm dir ∧
    cleanup_cache exSweepCfg 1000 exSweepDir (fun _ => true) =
      ["/cache/a.webm", "/cache/b.webm"] := by
  refine ⟨?_, List.sorted_insertionSort mtimeLE dir, List.perm_insertionSort mtimeLE dir, by decide⟩
  have hmt' : ∀ f ∈ List.insertionSort mtimeLE dir, f.modified ≤ now :=
    fun f hf => hmt f ((List.perm_insertionSort mtimeLE dir).mem_iff.mp hf)
  simpa [cleanup_cache] using
    sweepGo_spec (cfg.max_cache_size_mb * 1024 * 1024)
      (cfg.cache_max_age_days * 24 * 3600) now
      (List.insertionSort mtimeLE dir) ((dir.map (fun f => f.size)).sum) [] hmt'

/-- C4 witness: the general characterization applied to the example sweep. -/
theorem C4_sweep_correct_witness :
    cleanup_cache exSweepCfg 1000 exSweepDir (fun _ => true) =
      sweepSpecWalk (exSweepCfg.max_cache_size_mb * 1024 * 1024)
        (exSweepCfg.cache_max_age_days * 24 * 3600) 1000
        (List.insertionSort mtimeLE exSweepDir)
        ((exSweepDir.map (fun f => f.size)).sum) :=
  (C4_sweep_correct exSweepCfg 1000 exSweepDir (by decide)).1

/-- C5: a second `optimize_animation` call for the same animation with
unchanged source metadata and settings is a pure cache hit: whenever the
first call returned a path, the returned path is `cache_root/key.webm`, the
file exists after the first call, the second call returns the same path
with the cache state (including the transcoder-invocation count) unchanged,
and across both calls the transcoder ran at most once. -/
theorem C5_second_call_cache_hit (cfg : Config) (anim : Animation) (meta : FileMeta)
    (tc1 tc2 : Bool) (s : CacheState) (p : String)
    (h1 : (optimize_animation cfg anim (some meta) tc1 s).1 = Except.ok p) :
    (optimize_animation cfg anim (some meta) tc2
        (optimize_animation cfg anim (some meta) tc1 s).2).1 = Except.ok p ∧
    (optimize_animation cfg anim (some meta) tc2
        (optimize_animation cfg anim (some meta) tc1 s).2).2 =
      (optimize_animation cfg anim (some meta) tc1 s).2 ∧
    p = cfg.animation_cache_path ++ "/" ++ generate_cache_key cfg anim.path meta ++ ".webm" ∧
    p ∈ (optimize_animation cfg anim (some meta) tc1 s).2.files ∧
    (optimize_animation cfg anim (some meta) tc1 s).2.transcodeCount ≤ s.transcodeCount + 1 := by
  by_cases hmem :
      (cfg.animation_cache_path ++ "/" ++ generate_cache_key cfg anim.path meta ++ ".webm")
        ∈ s.files
  · have hfst : optimize_animation cfg anim (some meta) tc1 s =
        (Except.ok (cfg.animation_cache_path ++ "/" ++
          generate_cache_key cfg anim.path meta ++ ".webm"), s) := by
      simp [optimize_animation, hmem]
    rw [hfst] at h1 ⊢
    have hp : cfg.animation_cache_path ++ "/" ++
        generate_cache_key cfg anim.path meta ++ ".webm" = p := by
      simpa using h1
    subst hp
    refine ⟨?_, ?_, rfl, hmem, Nat.le_succ _⟩ <;> simp [optimize_animation, hmem]
  · cases tc1 with
    | false => simp [optimize_animation, hmem] at h1
    | true =>
      have hfst : optimize_animation cfg anim (some meta) true s =
          (Except.ok (cfg.animation_cache_path ++ "/" ++
            generate_cache_key cfg anim.path meta ++ ".webm"),
           ⟨(cfg.animation_cache_path ++ "/" ++
              generate_cache_key cfg anim.path meta ++ ".webm") :: s.files,
            s.transcodeCount + 1⟩) := by
        simp [optimize_animation, hmem]
      rw [hfst] at h1 ⊢
      have hp : cfg.animation_cache_path ++ "/" ++
          generate_cache_key cfg anim.path meta ++ ".webm" = p := by
        simpa using h1
      subst hp
      refine ⟨?_, ?_, rfl, List.mem_cons_self _ _, Nat.le_refl _⟩ <;>
        simp [optimize_animation]

set_option maxRecDepth 4000 in
/-- C5 witness: two consecutive calls on an empty cache root; the second
is a hit and only one transcode happened. -/
theorem C5_second_call_cache_hit_witness :
    (optimize_animation exCfg exBootAnim (some exMeta) true
        (optimize_animation exCfg exBootAnim (some exMeta) true ⟨[], 0⟩).2).1 =
      Except.ok (exCfg.animation_cache_path ++ "/" ++
        generate_cache_key exCfg exBootAnim.path exMeta ++ ".webm") ∧
    (optimize_animation exCfg exBootAnim (some exMeta) true
        ⟨[], 0⟩).2.transcodeCount ≤ (⟨[], 0⟩ : CacheState).transcodeCount + 1 :=
  ⟨(C5_second_call_cache_hit exCfg exBootAnim exMeta true true ⟨[], 0⟩
      (exCfg.animation_cache_path ++ "/" ++
        generate_cache_key exCfg exBootAnim.path exMeta ++ ".webm") (by decide)).1,
   (C5_second_call_cache_hit exCfg exBootAnim exMeta true true ⟨[], 0⟩
      (exCfg.animation_cache_path ++ "/" ++
        generate_cache_key exCfg exBootAnim.path exMeta ++ ".webm") (by decide)).2.2.2.2⟩

/-! ## Cache-key claim (C6) -/

theorem u64le_eq (n : Nat) :
    u64le n = [n / 1 % 256, n / 256 % 256, n / 65536 % 256, n / 16777216 % 256,
               n / 4294967296 % 256, n / 1099511627776 % 256,
               n / 281474976710656 % 256, n / 72057594037927936 % 256] := rfl

theorem u32le_eq (n : Nat) :
    u32le n = [n / 1 % 256, n / 256 % 256, n / 65536 % 256, n / 16777216 % 256] := rfl

theorem u64le_length (n : Nat) : (u64le n).length = 8 := by
  simp [u64le]

theorem u32le_length (n : Nat) : (u32le n).length = 4 := by
  simp [u32le]

theorem u64le_inj {m n : Nat} (hm : m < 2 ^ 64) (hn : n < 2 ^ 64)
    (h : u64le m = u64le n) : m = n := by
  rw [u64le_eq m, u64le_eq n] at h
  simp only [List.cons.injEq, and_true] at h
  have hm' : m < 18446744073709551616 := by norm_num at hm; exact hm
  have hn' : n < 18446744073709551616 := by norm_num at hn; exact hn
  omega

theorem u32le_inj {m n : Nat} (hm : m < 2 ^ 32) (hn : n < 2 ^ 32)
    (h : u32le m = u32le n) : m = n := by
  rw [u32le_eq m, u32le_eq n] at h
  simp only [List.cons.injEq, and_true] at h
  have hm' : m < 4294967296 := by norm_num at hm; exact hm
  have hn' : n < 4294967296 := by norm_num at hn; exact hn
  omega

theorem hexChars_length (bs : List Nat) : (hexChars bs).length = 2 * bs.length := by
  induction bs with
  | nil => rfl
  | cons b rest ih =>
    simp [hexChars, byteToHex] at ih ⊢
    omega

theorem sha256_length (msg : List Nat) : (sha256 msg).length = 32 := by
  simp [sha256, u32be]

/-- The cache key depends on nothing in the configuration beyond the four
transcoding settings. -/
theorem generate_cache_key_settings_only (cfg cfg' : Config) (p : String)
    (meta : FileMeta)
    (h1 : cfg.max_animation_duration = cfg'.max_animation_duration)
    (h2 : cfg.target_width = cfg'.target_width)
    (h3 : cfg.target_height = cfg'.target_height)
    (h4 : cfg.video_quality = cfg'.video_quality) :
    generate_cache_key cfg p meta = generate_cache_key cfg' p meta := by
  unfold generate_cache_key cacheKeyChars cacheKeyMessage
  rw [h1, h2, h3, h4]

/-- For a fixed source (path, length, modification time), the byte string
fed to the hasher determines the four transcoding settings. -/
theorem cacheKeyMessage_settings_inj (cfg cfg' : Config) (p : String)
    (meta : FileMeta) (t : Nat) (hmod : meta.modified = some t)
    (hd : cfg.max_animation_duration < 2 ^ 64)
    (hd' : cfg'.max_animation_duration < 2 ^ 64)
    (hw : cfg.target_width < 2 ^ 32) (hw' : cfg'.target_width < 2 ^ 32)
    (hh : cfg.target_height < 2 ^ 32) (hh' : cfg'.target_height < 2 ^ 32)
    (hq : cfg.video_quality < 2 ^ 32) (hq' : cfg'.video_quality < 2 ^ 32)
    (h : cacheKeyMessage cfg p meta = cacheKeyMessage cfg' p meta) :
    cfg.max_animation_duration = cfg'.max_animation_duration ∧
    cfg.target_width = cfg'.target_width ∧
    cfg.target_height = cfg'.target_height ∧
    cfg.video_quality = cfg'.video_quality := by
  unfold cacheKeyMessage at h
  rw [hmod] at h
  simp only [List.append_assoc] at h
  have h2 := List.append_inj_right h rfl
  have h3 := List.append_inj_right h2 rfl
  have h4 := List.append_inj_right h3 rfl
  obtain ⟨hdl, h5⟩ :=
    List.append_inj h4 (by rw [u64le_length, u64le_length])
  obtain ⟨hwl, h6⟩ :=
    List.append_inj h5 (by rw [u32le_length, u32le_length])
  obtain ⟨hhl, hql⟩ :=
    List.append_inj h6 (by rw [u32le_length, u32le_length])
  exact ⟨u64le_inj hd hd' hdl, u32le_inj hw hw' hwl,
         u32le_inj hh hh' hhl, u32le_inj hq hq' hql⟩

/-- Variant of `exCfg` with only the duration cap changed. -/
def exCfgDur : Config := { exCfg with max_animation_duration := 6 }

/-- Variant of `exCfg` with only the target width changed. -/
def exCfgWidth : Config := { exCfg with target_width := 1920 }

/-- Variant of `exCfg` with only the target height changed. -/
def exCfgHeight : Config := { exCfg with target_height := 1080 }

/-- Variant of `exCfg` with only the quality setting changed. -/
def exCfgQuality : Config := { exCfg with video_quality := 24 }

set_option maxRecDepth 8000 in
/-- C6: the cache key is a pure function of exactly (path string, byte
length, modification time in whole seconds, duration cap, width, height,
quality): two computations agreeing on those inputs agree on the key (so
the key is stable across restarts, whatever else the configuration holds);
for a fixed source, changing any one of the settings changes the hashed
byte string — and at the reference settings each single-setting change
changes the produced key; and every produced key is the 16-hex-character
prefix of the digest's 64-character hex rendering. -/
theorem C6_cache_key_pure_function (cfg cfg' : Config) (p : String)
    (meta : FileMeta) (t : Nat) (hmod : meta.modified = some t)
    (hd : cfg.max_animation_duration < 2 ^ 64)
    (hd' : cfg'.max_animation_duration < 2 ^ 64)
    (hw : cfg.target_width < 2 ^ 32) (hw' : cfg'.target_width < 2 ^ 32)
    (hh : cfg.target_height < 2 ^ 32) (hh' : cfg'.target_height < 2 ^ 32)
    (hq : cfg.video_quality < 2 ^ 32) (hq' : cfg'.video_quality < 2 ^ 32) :
    (cfg.max_animation_duration = cfg'.max_animation_duration ∧
     cfg.target_width = cfg'.target_width ∧
     cfg.target_height = cfg'.target_height ∧
     cfg.video_quality = cfg'.video_quality →
       generate_cache_key cfg p meta = generate_cache_key cfg' p meta) ∧
    (¬ (cfg.max_animation_duration = cfg'.max_animation_duration ∧
        cfg.target_width = cfg'.target_width ∧
        cfg.target_height = cfg'.target_height ∧
        cfg.video_quality = cfg'.video_quality) →
       cacheKeyMessage cfg p meta ≠ cacheKeyMessage cfg' p meta) ∧
    generate_cache_key cfg p meta =
      String.mk ((hexChars (sha256 (cacheKeyMessage cfg p meta))).take 16) ∧
    (hexChars (sha256 (cacheKeyMessage cfg p meta))).length = 64 ∧
    (cacheKeyChars cfg p meta).length = 16 ∧
    cacheKeyChars cfg p meta <+: hexChars (sha256 (cacheKeyMessage cfg p meta)) ∧
    generate_cache_key exCfgDur "/a/b.webm" exMeta ≠
      generate_cache_key exCfg "/a/b.webm" exMeta ∧
    generate_cache_key exCfgWidth "/a/b.webm" exMeta ≠
      generate_cache_key exCfg "/a/b.webm" exMeta ∧
    generate_cache_key exCfgHeight "/a/b.webm" exMeta ≠
      generate_cache_key exCfg "/a/b.webm" exMeta ∧
    generate_cache_key exCfgQuality "/a/b.webm" exMeta ≠
      generate_cache_key exCfg "/a/b.webm" exMeta := by
  refine ⟨fun ⟨e1, e2, e3, e4⟩ =>
            generate_cache_key_settings_only cfg cfg' p meta e1 e2 e3 e4,
         fun hne h =>
            hne (cacheKeyMessage_settings_inj cfg cfg' p meta t hmod
              hd hd' hw hw' hh hh' hq hq' h),
         rfl, ?_, ?_, List.take_prefix 16 _,
         by decide, by decide, by decide, by decide⟩
  · rw [hexChars_length, sha256_length]
  · simp [cacheKeyChars, List.length_take, hexChars_length, sha256_length]

set_option maxRecDepth 8000 in
/-- C6 witness: the key ignores unrelated configuration fields (override
path, cache budget) at concrete inputs, and concretely a quality change
alters the hashed bytes. -/
theorem C6_cache_key_pure_function_witness :
    generate_cache_key exCfg "/a/b.webm" exMeta =
      generate_cache_key
        { exCfg with steam_override_path := "/elsewhere", max_cache_size_mb := 1 }
        "/a/b.webm" exMeta ∧
    cacheKeyMessage exCfgQuality "/a/b.webm" exMeta ≠
      cacheKeyMessage exCfg "/a/b.webm" exMeta :=
  ⟨(C6_cache_key_pure_function exCfg
      { exCfg with steam_override_path := "/elsewhere", max_cache_size_mb := 1 }
      "/a/b.webm" exMeta 1700000000 rfl (by decide) (by decide) (by decide)
      (by decide) (by decide) (by decide) (by decide) (by decide)).1
        ⟨rfl, rfl, rfl, rfl⟩,
   (C6_cache_key_pure_function exCfgQuality exCfg "/a/b.webm" exMeta 1700000000 rfl
      (by decide) (by decide) (by decide) (by decide) (by decide) (by decide)
      (by decide) (by decide)).2.1 (by decide)⟩

